import Mathlib

/-!
Verification of the undo/redo state container with optimistic-update
support described by this repository's design specification (the Level 9
state-management core of the TaskFlow exercise set).

The repository ships the Level 9 README, type declarations and test
suites, but the implementation modules themselves
(`src/context/TaskReducer`, `src/components/level9/TaskStateProvider`,
`src/hooks/useLocalStorage`, the optimistic coordinator) are not part of
the checked-in sources.  Every definition below is therefore modelled
from the specification's own words (sections 3, 4, 7 and 8), with the
test suites' assertions used to pin concrete observable behaviour.

Convention: the history stacks `past` and `future` are stored
most-recent-FIRST (the head of the list is the entry `undo`/`redo` pops
next).  The specification narrates the same stacks most-recent-last;
the two presentations are mirror images and all observable contracts
(`record`, `undo`, `redo`, `canUndo`, `canRedo`, depth truncation
"dropping the oldest entry") are stated order-independently or spelled
out against this convention in the doc comments.
-/

namespace TaskFlow

/-- Modelled from the spec: task status enumeration
(`pending | in-progress | completed | cancelled`, section 3). -/
inductive TaskStatus where
  | pending
  | inProgress
  | completed
  | cancelled
deriving DecidableEq, Repr

/-- Modelled from the spec: task priority enumeration
(`low | medium | high`, section 3). -/
inductive TaskPriority where
  | low
  | medium
  | high
deriving DecidableEq, Repr

/-- Modelled from the spec: one entry of a task's append-only `history`
list (timestamp, actor identifier, change kind, field-level diff as the
changed field names; sections 3 and 4.1). -/
structure HistoryEntry where
  timestamp : String
  userId : String
  changeKind : String
  changedFields : List String
deriving DecidableEq, Repr

/-- Modelled from the spec: a Task record (section 3). Timestamps are
ISO-8601 strings carried opaquely. -/
structure Task where
  id : String
  title : String
  description : String
  status : TaskStatus
  priority : TaskPriority
  createdAt : String
  updatedAt : String
  history : List HistoryEntry
deriving DecidableEq, Repr

/-- Modelled from the spec: the normalized EntityStore — `byId` (a
mapping identifier → Task, held as an association list) plus `allIds`
(ordered sequence of identifiers; section 3). -/
structure EntityStore where
  byId : List (String × Task)
  allIds : List String
deriving DecidableEq, Repr

/-- Look a task up by identifier: first `byId` entry with that key. -/
def lookupTask (s : EntityStore) (id : String) : Option Task :=
  (s.byId.find? (fun e => e.1 = id)).map (fun e => e.2)

/-- Modelled from the spec: the data an `UpdateTask` command carries — a
field-wise optional merge plus the stamping data for `updatedAt` and the
appended history entry (section 4.1).  `timestamp` and `actor` travel
with the command so that applying it stays a pure function. -/
structure TaskUpdate where
  title : Option String
  description : Option String
  status : Option TaskStatus
  priority : Option TaskPriority
  timestamp : String
  actor : String
deriving DecidableEq, Repr

/-- The names of the fields a `TaskUpdate` changes, recorded in the
appended history entry (section 4.1: "recording the changed field
names"). -/
def changedFieldNames (u : TaskUpdate) : List String :=
  (if u.title.isSome then ["title"] else []) ++
  (if u.description.isSome then ["description"] else []) ++
  (if u.status.isSome then ["status"] else []) ++
  (if u.priority.isSome then ["priority"] else [])

/-- Merge a `TaskUpdate` into an existing task: optional fields
overwrite when present, `updatedAt` is stamped, and a history entry with
the changed field names is appended (section 4.1). -/
def applyUpdate (t : Task) (u : TaskUpdate) : Task :=
  { t with
    title := u.title.getD t.title
    description := u.description.getD t.description
    status := u.status.getD t.status
    priority := u.priority.getD t.priority
    updatedAt := u.timestamp
    history := t.history ++ [⟨u.timestamp, u.actor, "updated", changedFieldNames u⟩] }

/-- Modelled from the spec: the Command sum type — `CreateTask`,
`UpdateTask`, `DeleteTask`, `SetFilter`, `SetTheme`, plus a catch-all
for command kinds the entity reducer does not recognize (section 3,
"etc.", and section 4.1's unrecognized-kind clause). -/
inductive Command where
  | createTask (t : Task)
  | updateTask (id : String) (u : TaskUpdate)
  | deleteTask (id : String)
  | setFilter (f : String)
  | setTheme (th : String)
  | unknown (tag : String)
deriving DecidableEq, Repr

/-- Modelled from the spec: reducer-level error taxonomy —
`DuplicateIdError` and `NotFoundError` (section 7). -/
inductive ReduceError where
  | duplicateId (id : String)
  | notFound (id : String)
deriving DecidableEq, Repr

/-- Modelled from the spec: `reduce(state, command) -> newState`, a pure
function (section 4.1).  `CreateTask` appends to `byId` and `allIds`
(`DuplicateIdError` if the identifier already exists); `UpdateTask`
merges into the existing task (`NotFoundError` if absent);
`DeleteTask` removes the key from both `byId` and `allIds`, a no-op
when absent; `SetFilter`/`SetTheme` and unrecognized kinds leave the
EntityStore unchanged. -/
def reduce (s : EntityStore) (c : Command) : Except ReduceError EntityStore :=
  match c with
  | .createTask t =>
      if (lookupTask s t.id).isSome then
        .error (.duplicateId t.id)
      else
        .ok ⟨s.byId ++ [(t.id, t)], s.allIds ++ [t.id]⟩
  | .updateTask id u =>
      match lookupTask s id with
      | none => .error (.notFound id)
      | some _ =>
          .ok ⟨s.byId.map (fun e => if e.1 = id then (id, applyUpdate e.2 u) else e),
               s.allIds⟩
  | .deleteTask id =>
      .ok ⟨s.byId.filter (fun e => e.1 ≠ id), s.allIds.filter (fun i => i ≠ id)⟩
  | .setFilter _ => .ok s
  | .setTheme _ => .ok s
  | .unknown _ => .ok s

/-- Modelled from the spec: `HistoryState` — `past` and `future` stacks
of full-state snapshots (section 3).  Stored most-recent-first: the head
is the snapshot `undo`/`redo` pops next, and the "oldest" entry of the
specification is the last element. -/
structure HistoryState where
  past : List EntityStore
  future : List EntityStore
deriving DecidableEq, Repr

/-- Modelled from the spec: `record(state)` pushes the pre-mutation
snapshot onto `past`, clears `future`, and enforces the configured
maximum depth by dropping the oldest `past` entry when the bound is
exceeded (section 4.2).  With most-recent-first storage, keeping
`take maxDepth` after the push is exactly "drop the oldest when
exceeded". -/
def record (maxDepth : Nat) (h : HistoryState) (st : EntityStore) : HistoryState :=
  ⟨(st :: h.past).take maxDepth, []⟩

/-- `canUndo`: pure boolean projection of `past` non-emptiness
(section 4.2). -/
def canUndo (h : HistoryState) : Bool :=
  !h.past.isEmpty

/-- `canRedo`: pure boolean projection of `future` non-emptiness
(section 4.2). -/
def canRedo (h : HistoryState) : Bool :=
  !h.future.isEmpty

/-- Modelled from the spec: `NothingToUndoError` / `NothingToRedoError`
(section 7). -/
inductive HistoryError where
  | nothingToUndo
  | nothingToRedo
deriving DecidableEq, Repr

/-- Modelled from the spec: `undo(current)` fails with
`NothingToUndoError` when `past` is empty; otherwise pops the top of
`past`, pushes `current` onto `future`, and returns the popped snapshot
as the new current (section 4.2). -/
def undo (current : EntityStore) (h : HistoryState) :
    Except HistoryError (EntityStore × HistoryState) :=
  match h.past with
  | [] => .error .nothingToUndo
  | p :: rest => .ok (p, ⟨rest, current :: h.future⟩)

/-- Modelled from the spec: `redo(current)` is the mirror of `undo`:
fails with `NothingToRedoError` when `future` is empty; otherwise pops
`future`, pushes `current` onto `past`, and returns the popped snapshot
(section 4.2). -/
def redo (current : EntityStore) (h : HistoryState) :
    Except HistoryError (EntityStore × HistoryState) :=
  match h.future with
  | [] => .error .nothingToRedo
  | p :: rest => .ok (p, ⟨current :: h.past, rest⟩)

/-- Modelled from the spec: the state the Dispatch Facade exclusively
owns — the EntityStore plus the HistoryState (sections 3 and 4.4). -/
structure StoreState where
  store : EntityStore
  history : HistoryState
deriving DecidableEq, Repr

/-- The EntityStore a dispatch leaves behind: the reducer's new state on
success, the input state on a reducer error (section 7: a reducer error
is fatal to that dispatch and leaves the state unchanged). -/
def reduceTotal (st : EntityStore) (c : Command) : EntityStore :=
  match reduce st c with
  | .ok st' => st'
  | .error _ => st

/-- Modelled from the spec: `dispatch(command)` — every dispatch follows
the fixed order history-record (with the pre-mutation snapshot), then
reduce (section 4.4). -/
def dispatch (maxDepth : Nat) (s : StoreState) (c : Command) : StoreState :=
  ⟨reduceTotal s.store c, record maxDepth s.history s.store⟩

/-- Dispatch a whole sequence of commands in order. -/
def dispatchList (maxDepth : Nat) (s : StoreState) (cs : List Command) : StoreState :=
  cs.foldl (dispatch maxDepth) s

/-- `undo` lifted to the facade's state (section 4.4: `undo` bypasses
the reducer and restores a previously recorded snapshot directly). -/
def undoS (s : StoreState) : Except HistoryError StoreState :=
  (undo s.store s.history).map (fun p => ⟨p.1, p.2⟩)

/-- `redo` lifted to the facade's state. -/
def redoS (s : StoreState) : Except HistoryError StoreState :=
  (redo s.store s.history).map (fun p => ⟨p.1, p.2⟩)

/-- Apply `undo` `n` times, propagating `NothingToUndoError`. -/
def undoN : Nat → StoreState → Except HistoryError StoreState
  | 0, s => .ok s
  | n + 1, s => undoS s >>= undoN n

/-- The pre-mutation snapshots a command sequence generates: the state
the store holds just before each command runs. -/
def preStates (st : EntityStore) : List Command → List EntityStore
  | [] => []
  | c :: cs => st :: preStates (reduceTotal st c) cs

/-- Modelled from the spec: a `PendingOptimisticOp` — temporary
identifier, the pre-mutation snapshot, and the original command
(section 3).  Created at optimistic-apply time, discarded at
settlement. -/
structure PendingOp where
  tempId : String
  snapshot : EntityStore
  command : Command
deriving DecidableEq, Repr

/-- The outcome of an asynchronous confirmation once it settles:
success carries the server-assigned identifier, failure carries the
cause (section 4.3; timeout and rejection are treated identically). -/
inductive ConfirmResult where
  | success (serverId : String)
  | failure (cause : String)
deriving DecidableEq, Repr

/-- Modelled from the spec: the `OptimisticUpdateFailed` error surfaced
to the error channel, carrying the original command and the failure
cause (section 7). -/
structure OptimisticUpdateFailed where
  command : Command
  cause : String
deriving DecidableEq, Repr

/-- Modelled from the spec: the state the Optimistic Update Coordinator
owns — the shared EntityStore, the pending optimistic operations, and
the error channel (sections 4.3 and 7), with the newest error first. -/
structure CoordState where
  store : EntityStore
  pending : List PendingOp
  errors : List OptimisticUpdateFailed
deriving DecidableEq, Repr

/-- Modelled from the spec: the synchronous half of
`applyOptimistic(command, confirm)` for a create — reduce the store as
if the command had succeeded, inserting the task under the generated
temporary identifier, and record a `PendingOptimisticOp` holding the
pre-mutation snapshot (section 4.3). -/
def applyOptimisticCreate (c : CoordState) (tempId : String) (t : Task) : CoordState :=
  { store := reduceTotal c.store (.createTask { t with id := tempId })
    pending := ⟨tempId, c.store, .createTask t⟩ :: c.pending
    errors := c.errors }

/-- On confirmation success, the temporary identifier is replaced by the
server-assigned identifier throughout `byId` and `allIds`, in place
(section 4.3): `byId` entries keyed by the temporary identifier are
re-keyed (their task's `id` field included), `allIds` is rewritten
pointwise, so every position is preserved. -/
def commitCreate (s : EntityStore) (tempId serverId : String) : EntityStore :=
  { byId := s.byId.map
      (fun e => if e.1 = tempId then (serverId, { e.2 with id := serverId }) else e)
    allIds := s.allIds.map (fun i => if i = tempId then serverId else i) }

/-- Modelled from the spec: settling a pending optimistic create once
its confirmation resolves (section 4.3).  On success the Coordinator
commits the server identifier and discards the `PendingOptimisticOp`;
on failure it restores the pre-mutation snapshot, surfaces an
`OptimisticUpdateFailed` error to the error channel, and discards the
`PendingOptimisticOp`.  Settling a temporary identifier with no pending
entry is a no-op (section 5: settlement after teardown must not
crash). -/
def settle (c : CoordState) (tempId : String) (r : ConfirmResult) : CoordState :=
  match c.pending.find? (fun p => p.tempId = tempId) with
  | none => c
  | some p =>
      let remaining := c.pending.filter (fun q => q.tempId ≠ tempId)
      match r with
      | .success serverId =>
          { store := commitCreate c.store tempId serverId
            pending := remaining
            errors := c.errors }
      | .failure cause =>
          { store := p.snapshot
            pending := remaining
            errors := ⟨p.command, cause⟩ :: c.errors }

/-- The temporary identifiers with a pending optimistic operation. -/
def pendingIds (c : CoordState) : List String :=
  c.pending.map (fun p => p.tempId)

/-- A browser-storage area: association of keys to raw stored strings,
most recent write first. -/
def StorageArea : Type := List (String × String)

/-- Read a key from a storage area (`getItem`: the raw string, or
nothing when the key is absent). -/
def storageGet (st : StorageArea) (key : String) : Option String :=
  (List.find? (fun e => e.1 = key) st).map (fun e => e.2)

/-- Write a key into a storage area (`setItem`). -/
def storageSet (st : StorageArea) (key value : String) : StorageArea :=
  (key, value) :: List.filter (fun e => e.1 ≠ key) st

/-- Modelled from the spec: the initialization step of the
`useLocalStorage` hook.  The hook's implementation
(`src/hooks/useLocalStorage`) is missing from the checked-in sources;
this is taken from its test suite's assertions: on mount the hook reads
the stored entry for its key; when the key is absent, or when the
stored string fails to deserialize, it falls back to the supplied
`initialValue` and writes the serialized `initialValue` back to
storage; otherwise it adopts the deserialized value and leaves storage
untouched.  Deserialization failure (e.g. invalid JSON) is modelled by
`deserialize` returning `none`.  Returns the hook's initial state
together with the storage area after mount. -/
def useLocalStorageInit {α : Type} (serialize : α → String)
    (deserialize : String → Option α) (st : StorageArea) (key : String)
    (initialValue : α) : α × StorageArea :=
  match storageGet st key with
  | none => (initialValue, storageSet st key (serialize initialValue))
  | some raw =>
      match deserialize raw with
      | some v => (v, st)
      | none => (initialValue, storageSet st key (serialize initialValue))

/-- A minimal task fixture used by concrete scenarios. -/
def mkTask (id title : String) : Task :=
  ⟨id, title, "", .pending, .medium, "2023-01-01T00:00:00Z", "2023-01-01T00:00:00Z", []⟩

/-- The empty EntityStore of the specification's section 8 scenario. -/
def emptyStore : EntityStore :=
  ⟨[], []⟩

/-- A one-task store fixture. -/
def sampleStore : EntityStore :=
  ⟨[("1", mkTask "1" "Learn")], ["1"]⟩

/-- The facade state of the section 8 scenario: empty store, empty
history. -/
def initState : StoreState :=
  ⟨emptyStore, ⟨[], []⟩⟩

/-- Two create commands, used by concrete scenarios. -/
def twoCreates : List Command :=
  [.createTask (mkTask "1" "A"), .createTask (mkTask "2" "B")]

/-- An update fixture stamped with the given timestamp. -/
def sampleUpdate (ts : String) : TaskUpdate :=
  ⟨some ("Title at " ++ ts), none, none, none, ts, "user-1"⟩

/-- The section 8 depth-bound scenario's start state: one task, empty
history. -/
def depthInit : StoreState :=
  ⟨sampleStore, ⟨[], []⟩⟩

/-- The section 8 depth-bound scenario's three updates. -/
def threeUpdates : List Command :=
  [.updateTask "1" (sampleUpdate "t1"),
   .updateTask "1" (sampleUpdate "t2"),
   .updateTask "1" (sampleUpdate "t3")]

/-- C9: for every state and every command of an unrecognized kind,
`reduce` returns the input state unchanged and never throws (it
produces a normal `.ok` outcome, not an error). -/
theorem reduce_unknown_returns_state_unchanged (s : EntityStore) (tag : String) :
    reduce s (Command.unknown tag) = Except.ok s :=
  rfl

/-- C3: dispatching any (non-undo/redo) command leaves `future` empty,
so `canRedo` is false.  This holds for every facade state — in
particular for every state reached after an undo — because `dispatch`
records with the fixed `record` step, which clears `future`
unconditionally. -/
theorem dispatch_clears_future (maxDepth : Nat) (s : StoreState) (c : Command) :
    (dispatch maxDepth s c).history.future = [] ∧
      canRedo (dispatch maxDepth s c).history = false :=
  ⟨rfl, rfl⟩

/-- C7: reducing a `CreateTask` whose identifier is already present
fails with `DuplicateIdError`, and the dispatch leaves the store
unchanged (`reduceTotal` keeps the input state, so the error is atomic:
no outcome state other than the input exists). -/
theorem create_duplicate_id_fails (s : EntityStore) (t : Task) (u : Task)
    (h : lookupTask s t.id = some u) :
    reduce s (Command.createTask t) = Except.error (ReduceError.duplicateId t.id) ∧
      reduceTotal s (Command.createTask t) = s := by
  have hsome : (lookupTask s t.id).isSome = true := by rw [h]; rfl
  constructor
  · simp [reduce, hsome]
  · simp [reduceTotal, reduce, hsome]

/-- Witness for C7 at a concrete input: `sampleStore` already holds the
identifier "1". -/
theorem create_duplicate_id_fails_witness :
    reduce sampleStore (Command.createTask (mkTask "1" "Other")) =
        Except.error (ReduceError.duplicateId "1") ∧
      reduceTotal sampleStore (Command.createTask (mkTask "1" "Other")) = sampleStore :=
  create_duplicate_id_fails sampleStore (mkTask "1" "Other") (mkTask "1" "Learn") rfl

/-- Keys surviving a delete's filter never equal the deleted key. -/
theorem find?_filter_key_ne (l : List (String × Task)) (id : String) :
    List.find? (fun e => e.1 = id) (l.filter (fun e => e.1 ≠ id)) = none := by
  apply List.find?_eq_none.mpr
  intro x hx
  have hmem := List.mem_filter.mp hx
  simpa using hmem.2

/-- C8: deleting an identifier absent from the store is a no-op — the
exact input store is returned with no error — and whenever a delete
succeeds, the identifier is gone from both `byId` and `allIds`. -/
theorem delete_absent_noop_and_removes (s : EntityStore) (id : String) :
    (lookupTask s id = none → id ∉ s.allIds → reduce s (Command.deleteTask id) = Except.ok s) ∧
      (∀ s', reduce s (Command.deleteTask id) = Except.ok s' →
        lookupTask s' id = none ∧ id ∉ s'.allIds) := by
  constructor
  · intro hById hIds
    have hfind : List.find? (fun e => e.1 = id) s.byId = none := by
      simpa [lookupTask, Option.map_eq_none'] using hById
    have h1 : s.byId.filter (fun e => e.1 ≠ id) = s.byId := by
      apply List.filter_eq_self.mpr
      intro e he
      have := List.find?_eq_none.mp hfind e he
      simpa using this
    have h2 : s.allIds.filter (fun i => i ≠ id) = s.allIds := by
      apply List.filter_eq_self.mpr
      intro i hi
      simp only [ne_eq, decide_eq_true_eq]
      intro hcontra
      exact hIds (hcontra ▸ hi)
    show Except.ok (⟨s.byId.filter (fun e => e.1 ≠ id),
      s.allIds.filter (fun i => i ≠ id)⟩ : EntityStore) = Except.ok s
    rw [h1, h2]
  · intro s' hs'
    have hform : (⟨s.byId.filter (fun e => e.1 ≠ id),
        s.allIds.filter (fun i => i ≠ id)⟩ : EntityStore) = s' := Except.ok.inj hs'
    subst hform
    constructor
    · simp [lookupTask, find?_filter_key_ne]
    · intro hmem
      have := List.mem_filter.mp hmem
      simp at this

/-- Witness for C8 at concrete inputs: deleting "9" from `sampleStore`
is a no-op, and deleting "1" removes it from `byId` and `allIds`. -/
theorem delete_absent_noop_and_removes_witness :
    reduce sampleStore (Command.deleteTask "9") = Except.ok sampleStore ∧
      (lookupTask ⟨[], []⟩ "1" = none ∧ "1" ∉ ([] : List String)) :=
  ⟨(delete_absent_noop_and_removes sampleStore "9").1 rfl (by decide),
   (delete_absent_noop_and_removes sampleStore "1").2 ⟨[], []⟩ (by rfl)⟩

/-- Truncating a pre-truncated tail again truncates the whole list:
repeated depth enforcement is the same as one final enforcement. -/
theorem take_append_take {α : Type} (X Y : List α) (M : Nat) :
    (X ++ Y.take M).take M = (X ++ Y).take M := by
  rw [List.take_append_eq_append_take, List.take_append_eq_append_take, List.take_take]
  have hmin : min (M - X.length) M = M - X.length := Nat.min_eq_left (Nat.sub_le M X.length)
  rw [hmin]

/-- A command sequence generates as many pre-mutation snapshots as it
has commands. -/
theorem preStates_length (cs : List Command) :
    ∀ st : EntityStore, (preStates st cs).length = cs.length := by
  induction cs with
  | nil => intro st; rfl
  | cons c cs' ih =>
      intro st
      simp [preStates, ih]

/-- After a non-empty dispatch sequence, `past` is the depth-truncated
stack of the sequence's pre-mutation snapshots (newest first) on top of
the starting `past`. -/
theorem dispatchList_past (M : Nat) :
    ∀ (cs : List Command) (c : Command) (s : StoreState),
      (dispatchList M s (c :: cs)).history.past =
        ((preStates s.store (c :: cs)).reverse ++ s.history.past).take M := by
  intro cs
  induction cs with
  | nil =>
      intro c s
      simp [dispatchList, dispatch, record, preStates]
  | cons c' cs'' ih =>
      intro c s
      have step : dispatchList M s (c :: c' :: cs'') =
          dispatchList M (dispatch M s c) (c' :: cs'') := rfl
      rw [step, ih c' (dispatch M s c)]
      show ((preStates (reduceTotal s.store c) (c' :: cs'')).reverse ++
          (s.store :: s.history.past).take M).take M = _
      rw [take_append_take]
      simp [preStates, List.append_assoc]

/-- Undoing down through a stack segment of `n` snapshots lands on the
snapshot just below the segment. -/
theorem undoN_restore :
    ∀ (l : List EntityStore) (a : EntityStore) (R f : List EntityStore) (cur : EntityStore),
      ∃ h : HistoryState,
        undoN (l.length + 1) ⟨cur, ⟨l ++ a :: R, f⟩⟩ = Except.ok ⟨a, h⟩ := by
  intro l
  induction l with
  | nil =>
      intro a R f cur
      exact ⟨⟨R, cur :: f⟩, rfl⟩
  | cons b l' ih =>
      intro a R f cur
      have step : undoN ((b :: l').length + 1) ⟨cur, ⟨(b :: l') ++ a :: R, f⟩⟩ =
          undoN (l'.length + 1) ⟨b, ⟨l' ++ a :: R, cur :: f⟩⟩ := rfl
      rw [step]
      exact ih a R (cur :: f) b

/-- C1 (amended): for every starting facade state and every command
sequence whose length does not exceed the configured maximum history
depth, applying `undo` once per dispatched command returns the
EntityStore to its exact pre-sequence state (Lean equality of the full
normalized store — bit-for-bit). -/
theorem undo_n_times_restores_store (M : Nat) (s : StoreState) (cs : List Command)
    (h : cs.length ≤ M) :
    ∃ hist : HistoryState,
      undoN cs.length (dispatchList M s cs) = Except.ok ⟨s.store, hist⟩ := by
  cases cs with
  | nil => exact ⟨s.history, rfl⟩
  | cons c cs' =>
      have hlenM : cs'.length + 1 ≤ M := by simpa using h
      have hpast := dispatchList_past M cs' c s
      have hlen : (preStates (reduceTotal s.store c) cs').length = cs'.length :=
        preStates_length cs' (reduceTotal s.store c)
      have hsplit : ((preStates s.store (c :: cs')).reverse ++ s.history.past).take M =
          (preStates (reduceTotal s.store c) cs').reverse ++
            s.store :: s.history.past.take (M - cs'.length - 1) := by
        have h1 : preStates s.store (c :: cs') =
            s.store :: preStates (reduceTotal s.store c) cs' := rfl
        rw [h1, List.reverse_cons, List.append_assoc, List.take_append_eq_append_take]
        have hrevlen : (preStates (reduceTotal s.store c) cs').reverse.length = cs'.length := by
          rw [List.length_reverse, hlen]
        rw [List.take_of_length_le (by omega), hrevlen]
        have harith : M - cs'.length = (M - cs'.length - 1) + 1 := by omega
        rw [harith]
        rfl
      have hpastfinal : (dispatchList M s (c :: cs')).history.past =
          (preStates (reduceTotal s.store c) cs').reverse ++
            s.store :: s.history.past.take (M - cs'.length - 1) := by
        rw [hpast, hsplit]
      have key : ∀ D : StoreState,
          D.history.past = (preStates (reduceTotal s.store c) cs').reverse ++
            s.store :: s.history.past.take (M - cs'.length - 1) →
          ∃ hist : HistoryState,
            undoN (cs'.length + 1) D = Except.ok ⟨s.store, hist⟩ := by
        intro D hD
        obtain ⟨st, hist0⟩ := D
        obtain ⟨p0, f0⟩ := hist0
        simp only at hD
        subst hD
        have hcount : cs'.length = (preStates (reduceTotal s.store c) cs').reverse.length := by
          rw [List.length_reverse, hlen]
        nth_rewrite 1 [hcount]
        exact undoN_restore (preStates (reduceTotal s.store c) cs').reverse s.store
          (s.history.past.take (M - cs'.length - 1)) f0 st
      exact key (dispatchList M s (c :: cs')) hpastfinal

/-- Witness for C1's amended theorem at a concrete input: two creates
from the empty store with depth 2, then two undos. -/
theorem undo_n_times_restores_store_witness :
    twoCreates.length ≤ 2 ∧
      ∃ hist : HistoryState,
        undoN twoCreates.length (dispatchList 2 initState twoCreates) =
          Except.ok ⟨initState.store, hist⟩ :=
  ⟨by decide, undo_n_times_restores_store 2 initState twoCreates (by decide)⟩

/-- Counterexample to C1 as stated: with the maximum depth configured
to 1, dispatching two creates and undoing twice does not return the
store to its pre-sequence state — the oldest snapshot was dropped by
the depth bound, so the second undo fails with `NothingToUndoError`. -/
theorem undo_n_times_unbounded_counterexample :
    ¬ ∃ hist : HistoryState,
        undoN twoCreates.length (dispatchList 1 initState twoCreates) =
          Except.ok ⟨initState.store, hist⟩ := by
  intro hcontra
  obtain ⟨hist, hh⟩ := hcontra
  rw [show undoN twoCreates.length (dispatchList 1 initState twoCreates) =
      Except.error HistoryError.nothingToUndo from rfl] at hh
  cases hh

/-- C2: for every state `S`, command `C` and positive configured depth,
with `S' = dispatch(S, C)`, `redo(undo(S'))` yields `S'` again — the
full facade state, store and history alike — when no command intervened
between the undo and the redo. -/
theorem redo_undo_round_trip (M : Nat) (s : StoreState) (c : Command) (h : 1 ≤ M) :
    (undoS (dispatch M s c) >>= redoS) = Except.ok (dispatch M s c) := by
  obtain ⟨M', rfl⟩ : ∃ M', M = M' + 1 := ⟨M - 1, by omega⟩
  rfl

/-- Witness for C2 at a concrete input: depth 1, empty starting state,
one create command. -/
theorem redo_undo_round_trip_witness :
    (1 : Nat) ≤ 1 ∧
      (undoS (dispatch 1 initState (Command.createTask (mkTask "1" "A"))) >>= redoS) =
        Except.ok (dispatch 1 initState (Command.createTask (mkTask "1" "A"))) :=
  ⟨by decide, redo_undo_round_trip 1 initState (Command.createTask (mkTask "1" "A")) (by decide)⟩

/-- C4: `record` enforces the configured maximum depth — pushing onto a
full `past` keeps the length at the bound and drops exactly the oldest
entry (the last element in most-recent-first storage) — and in the
section 8 scenario (depth 2, three updates) exactly 2 entries remain in
`past`, with the starting snapshot (the oldest) discarded. -/
theorem record_depth_bound (M : Nat) (h : HistoryState) (st : EntityStore)
    (hM : 0 < M) (hfull : h.past.length = M) :
    ((record M h st).past.length = M ∧
      (record M h st).past = st :: h.past.dropLast) ∧
      ((dispatchList 2 depthInit threeUpdates).history.past.length = 2 ∧
        depthInit.store ∉ (dispatchList 2 depthInit threeUpdates).history.past) := by
  refine ⟨⟨?_, ?_⟩, ⟨by decide, by decide⟩⟩
  · show ((st :: h.past).take M).length = M
    rw [List.length_take]
    simp only [List.length_cons, hfull]
    omega
  · show (st :: h.past).take M = st :: h.past.dropLast
    obtain ⟨M', rfl⟩ : ∃ M', M = M' + 1 := ⟨M - 1, by omega⟩
    rw [List.take_succ_cons]
    congr 1
    rw [List.dropLast_eq_take]
    congr 1
    omega

/-- Witness for C4's depth-bound theorem at a concrete input: depth 2
with a full two-entry `past`. -/
theorem record_depth_bound_witness :
    (0 : Nat) < 2 ∧
      (record 2 ⟨[emptyStore, sampleStore], []⟩ sampleStore).past.length = 2 ∧
      (record 2 ⟨[emptyStore, sampleStore], []⟩ sampleStore).past = [sampleStore, emptyStore] :=
  ⟨by decide,
   (record_depth_bound 2 ⟨[emptyStore, sampleStore], []⟩ sampleStore (by decide) (by decide)).1.1,
   by simpa using (record_depth_bound 2 ⟨[emptyStore, sampleStore], []⟩ sampleStore
     (by decide) (by decide)).1.2⟩

/-- After a commit re-keys the temporary identifier, no `byId` entry
carries the temporary key any more. -/
theorem find?_commit_tmp_none (l : List (String × Task)) (tmp srv : String) (hne : tmp ≠ srv) :
    List.find? (fun e => e.1 = tmp)
      (l.map (fun e => if e.1 = tmp then (srv, { e.2 with id := srv }) else e)) = none := by
  induction l with
  | nil => rfl
  | cons e l' ih =>
      simp only [List.map_cons]
      by_cases he : e.1 = tmp
      · rw [if_pos he, List.find?_cons_of_neg, ih]
        simp [Ne.symm hne]
      · rw [if_neg he, List.find?_cons_of_neg, ih]
        simp [he]

/-- After a commit re-keys the temporary identifier, the server key
resolves to the re-keyed task of the first temporary entry, provided
the server key was fresh. -/
theorem find?_commit_srv (l : List (String × Task)) (tmp srv : String) (et : String × Task)
    (hsrv : List.find? (fun e => e.1 = srv) l = none)
    (htmp : List.find? (fun e => e.1 = tmp) l = some et) :
    List.find? (fun e => e.1 = srv)
      (l.map (fun e => if e.1 = tmp then (srv, { e.2 with id := srv }) else e)) =
      some (srv, { et.2 with id := srv }) := by
  induction l with
  | nil => cases htmp
  | cons e l' ih =>
      simp only [List.map_cons]
      have hesrv : ¬ (e.1 = srv) := by
        intro hcontra
        rw [List.find?_cons_of_pos _ (by simpa using hcontra)] at hsrv
        cases hsrv
      by_cases he : e.1 = tmp
      · rw [if_pos he, List.find?_cons_of_pos _ (by simp)]
        rw [List.find?_cons_of_pos _ (by simpa using he)] at htmp
        injection htmp with h2
        subst h2
        rfl
      · rw [if_neg he, List.find?_cons_of_neg _ (by simpa using hesrv)]
        apply ih
        · rw [List.find?_cons_of_neg _ (by simpa using hesrv)] at hsrv
          exact hsrv
        · rw [List.find?_cons_of_neg _ (by simpa using he)] at htmp
          exact htmp

/-- Rewriting `allIds` pointwise puts the server identifier at exactly
the position the temporary identifier held. -/
theorem findIdx_map_replace (tmp srv : String) (l : List String) (hsrv : srv ∉ l) :
    List.findIdx (fun i => i = srv) (l.map (fun i => if i = tmp then srv else i)) =
      List.findIdx (fun i => i = tmp) l := by
  induction l with
  | nil => rfl
  | cons a l' ih =>
      have hasrv : ¬ (a = srv) := by
        intro hcontra
        exact hsrv (hcontra ▸ List.mem_cons_self a l')
      have hsrv' : srv ∉ l' := fun hmem => hsrv (List.mem_cons_of_mem a hmem)
      simp only [List.map_cons]
      by_cases ha : a = tmp
      · rw [if_pos ha]
        simp [List.findIdx_cons, ha]
      · rw [if_neg ha]
        simp [List.findIdx_cons, ha, hasrv, ih hsrv']

/-- After the pointwise rewrite, the temporary identifier no longer
appears in `allIds`. -/
theorem tmp_not_mem_map_replace (tmp srv : String) (l : List String) (hne : tmp ≠ srv) :
    tmp ∉ l.map (fun i => if i = tmp then srv else i) := by
  intro hmem
  obtain ⟨i, hi, heq⟩ := List.mem_map.mp hmem
  by_cases h : i = tmp
  · rw [if_pos h] at heq
    exact hne heq.symm
  · rw [if_neg h] at heq
    exact h heq

/-- Discarding a pending operation removes its temporary identifier
from the pending set. -/
theorem tmp_not_pending_after_filter (ps : List PendingOp) (tmp : String) :
    tmp ∉ (ps.filter (fun q => q.tempId ≠ tmp)).map (fun p => p.tempId) := by
  intro hmem
  obtain ⟨p, hp, heq⟩ := List.mem_map.mp hmem
  have hpred := (List.mem_filter.mp hp).2
  simp only [ne_eq, decide_eq_true_eq] at hpred
  exact hpred heq

/-- C5: when an optimistic create's confirmation resolves successfully,
settling replaces the temporary identifier with the server-assigned one
throughout `byId` and `allIds` — the task resolves under the server
identifier, the temporary identifier no longer resolves and is gone
from `allIds`, `allIds` keeps its length with the server identifier at
the temporary identifier's old position — and the pending entry is
discarded. -/
theorem optimistic_create_commit (c : CoordState) (tmp srv : String) (p : PendingOp)
    (t : Task)
    (hp : c.pending.find? (fun q => q.tempId = tmp) = some p)
    (ht : lookupTask c.store tmp = some t)
    (hsrv : lookupTask c.store srv = none)
    (hsrvIds : srv ∉ c.store.allIds)
    (hne : tmp ≠ srv) :
    lookupTask (settle c tmp (ConfirmResult.success srv)).store srv =
        some { t with id := srv } ∧
      lookupTask (settle c tmp (ConfirmResult.success srv)).store tmp = none ∧
      tmp ∉ (settle c tmp (ConfirmResult.success srv)).store.allIds ∧
      (settle c tmp (ConfirmResult.success srv)).store.allIds.length =
        c.store.allIds.length ∧
      List.findIdx (fun i => i = srv) (settle c tmp (ConfirmResult.success srv)).store.allIds =
        List.findIdx (fun i => i = tmp) c.store.allIds ∧
      tmp ∉ pendingIds (settle c tmp (ConfirmResult.success srv)) := by
  have hsettle : settle c tmp (ConfirmResult.success srv) =
      { store := commitCreate c.store tmp srv,
        pending := c.pending.filter (fun q => q.tempId ≠ tmp),
        errors := c.errors } := by
    unfold settle
    rw [hp]
  rw [hsettle]
  obtain ⟨et, hfind, het2⟩ := Option.map_eq_some'.mp ht
  have hsrvfind : List.find? (fun e => e.1 = srv) c.store.byId = none := by
    simpa [lookupTask, Option.map_eq_none'] using hsrv
  refine ⟨?_, ?_, ?_, ?_, ?_, ?_⟩
  · show (List.find? (fun e => e.1 = srv) ((commitCreate c.store tmp srv).byId)).map
      (fun e => e.2) = some { t with id := srv }
    rw [show (commitCreate c.store tmp srv).byId = c.store.byId.map
      (fun e => if e.1 = tmp then (srv, { e.2 with id := srv }) else e) from rfl]
    rw [find?_commit_srv c.store.byId tmp srv et hsrvfind hfind]
    rw [← het2]
    rfl
  · show (List.find? (fun e => e.1 = tmp) ((commitCreate c.store tmp srv).byId)).map
      (fun e => e.2) = none
    rw [show (commitCreate c.store tmp srv).byId = c.store.byId.map
      (fun e => if e.1 = tmp then (srv, { e.2 with id := srv }) else e) from rfl]
    rw [find?_commit_tmp_none c.store.byId tmp srv hne]
    rfl
  · exact tmp_not_mem_map_replace tmp srv c.store.allIds hne
  · exact List.length_map c.store.allIds _
  · exact findIdx_map_replace tmp srv c.store.allIds hsrvIds
  · exact tmp_not_pending_after_filter c.pending tmp

/-- The coordinator state just before an optimistic create settles:
one task store, one pending optimistic create under "temp-1". -/
def optPending : CoordState :=
  applyOptimisticCreate ⟨sampleStore, [], []⟩ "temp-1" (mkTask "task-x" "New Task")

/-- Witness for C5 at a concrete input: settling "temp-1" with server
identifier "server-id". -/
theorem optimistic_create_commit_witness :
    lookupTask (settle optPending "temp-1" (ConfirmResult.success "server-id")).store
        "server-id" = some { mkTask "task-x" "New Task" with id := "server-id" } ∧
      lookupTask (settle optPending "temp-1" (ConfirmResult.success "server-id")).store
        "temp-1" = none ∧
      "temp-1" ∉ pendingIds (settle optPending "temp-1" (ConfirmResult.success "server-id")) := by
  have h := optimistic_create_commit optPending "temp-1" "server-id"
    ⟨"temp-1", sampleStore, Command.createTask (mkTask "task-x" "New Task")⟩
    { mkTask "task-x" "New Task" with id := "temp-1" }
    rfl rfl rfl (by decide) (by decide)
  exact ⟨h.1, h.2.1, h.2.2.2.2.2⟩

/-- C6: when an optimistic operation's confirmation rejects, settling
restores the EntityStore to the snapshot captured before the optimistic
mutation, surfaces an `OptimisticUpdateFailed` error carrying the
original command and the failure cause on the error channel, and
discards the pending entry; and after either settlement path (failure
or success) no dangling pending entry remains under that temporary
identifier. -/
theorem optimistic_failure_rollback (c : CoordState) (tmp cause : String) (p : PendingOp)
    (hp : c.pending.find? (fun q => q.tempId = tmp) = some p) :
    (settle c tmp (ConfirmResult.failure cause)).store = p.snapshot ∧
      (settle c tmp (ConfirmResult.failure cause)).errors =
        ⟨p.command, cause⟩ :: c.errors ∧
      tmp ∉ pendingIds (settle c tmp (ConfirmResult.failure cause)) ∧
      ∀ srv : String, tmp ∉ pendingIds (settle c tmp (ConfirmResult.success srv)) := by
  have hsettle : settle c tmp (ConfirmResult.failure cause) =
      { store := p.snapshot,
        pending := c.pending.filter (fun q => q.tempId ≠ tmp),
        errors := ⟨p.command, cause⟩ :: c.errors } := by
    unfold settle
    rw [hp]
  have hsettleS : ∀ srv : String, settle c tmp (ConfirmResult.success srv) =
      { store := commitCreate c.store tmp srv,
        pending := c.pending.filter (fun q => q.tempId ≠ tmp),
        errors := c.errors } := by
    intro srv
    unfold settle
    rw [hp]
  rw [hsettle]
  refine ⟨rfl, rfl, tmp_not_pending_after_filter c.pending tmp, ?_⟩
  intro srv
  rw [hsettleS srv]
  exact tmp_not_pending_after_filter c.pending tmp

/-- Witness for C6 at a concrete input: rejecting the pending create
under "temp-1" with cause "Network error". -/
theorem optimistic_failure_rollback_witness :
    (settle optPending "temp-1" (ConfirmResult.failure "Network error")).store = sampleStore ∧
      (settle optPending "temp-1" (ConfirmResult.failure "Network error")).errors =
        [⟨Command.createTask (mkTask "task-x" "New Task"), "Network error"⟩] ∧
      "temp-1" ∉ pendingIds (settle optPending "temp-1" (ConfirmResult.failure "Network error")) := by
  have h := optimistic_failure_rollback optPending "temp-1" "Network error"
    ⟨"temp-1", sampleStore, Command.createTask (mkTask "task-x" "New Task")⟩ rfl
  exact ⟨h.1, h.2.1, h.2.2.1⟩

/-- Writing a key makes it immediately readable with the written
value. -/
theorem storageGet_set (st : StorageArea) (key value : String) :
    storageGet (storageSet st key value) key = some value := by
  show (List.find? (fun e => e.1 = key) ((key, value) :: _)).map (fun e => e.2) = some value
  rw [List.find?_cons_of_pos _ (by simp)]
  rfl

/-- C10: when the stored entry under the hook's key fails to
deserialize, `useLocalStorage` initializes its state to the supplied
`initialValue` and overwrites the stored entry with the serialized
`initialValue` (no exception: initialization is a total function). -/
theorem useLocalStorage_deserialize_failure {α : Type} (serialize : α → String)
    (deserialize : String → Option α) (st : StorageArea) (key raw : String) (init0 : α)
    (hs : storageGet st key = some raw) (hd : deserialize raw = none) :
    (useLocalStorageInit serialize deserialize st key init0).1 = init0 ∧
      (useLocalStorageInit serialize deserialize st key init0).2 =
        storageSet st key (serialize init0) ∧
      storageGet (useLocalStorageInit serialize deserialize st key init0).2 key =
        some (serialize init0) := by
  have hmain : useLocalStorageInit serialize deserialize st key init0 =
      (init0, storageSet st key (serialize init0)) := by
    unfold useLocalStorageInit
    rw [hs]
    show (match deserialize raw with
      | some v => (v, st)
      | none => (init0, storageSet st key (serialize init0))) =
        (init0, storageSet st key (serialize init0))
    rw [hd]
  rw [hmain]
  exact ⟨rfl, rfl, storageGet_set st key (serialize init0)⟩

/-- Witness for C10 at a concrete input: the stored string
"invalid json" fails to deserialize (the concrete deserializer only
accepts the serialized form "42"), so the hook falls back to the
initial value 42 and overwrites the entry with "42". -/
theorem useLocalStorage_deserialize_failure_witness :
    (useLocalStorageInit (fun n : Nat => toString n)
        (fun s => if s = "42" then some 42 else none)
        [("testKey", "invalid json")] "testKey" 42).1 = 42 ∧
      storageGet (useLocalStorageInit (fun n : Nat => toString n)
        (fun s => if s = "42" then some 42 else none)
        [("testKey", "invalid json")] "testKey" 42).2 "testKey" = some "42" := by
  have h := useLocalStorage_deserialize_failure (fun n : Nat => toString n)
    (fun s => if s = "42" then some 42 else none)
    [("testKey", "invalid json")] "testKey" "invalid json" 42 rfl (by decide)
  exact ⟨h.1, h.2.2⟩

end TaskFlow
